import Mathlib

/-!
Shallow embedding of the emergent agent-behavior simulation core of the
hacktown repository: the scalar-field grid (fields module), the dark-psychology
model (despair, aggression, trauma, dark-action checks) and the utility
decision engine (drives module).

Numeric values are embedded as exact rationals (or reals where the source
uses Math.sqrt); JavaScript decimal literals such as 0.35 are exact
rationals, so the embedding computes the same values the source computes up
to floating-point rounding. Calls to Math.random() are modelled as explicit
arguments: each function that draws from the global generator takes the
drawn value as an input, so that dependence on the unseeded draws is visible
in the type. Fields accessed with a default (npc.social ?? 0.5) are modelled
as always-present record fields; the default only substitutes for absent
fields, which the record type cannot represent.
-/

namespace Hacktown

/-- Clamp a value to the unit interval; clamp01 in convex/drives.ts. -/
def clamp01 {A : Type} [LinearOrderedField A] (value : A) : A :=
  max 0 (min 1 value)

/-- Personality vector of an entity (each coordinate documented as lying in
the unit interval). Fields as in the data model of the source. -/
structure Personality where
  curiosity : ℚ
  empathy : ℚ
  boldness : ℚ
  order : ℚ
  mood : ℚ
  weirdness : ℚ

/-- A trauma memory: timestamp (simulation minutes) and severity. The source
also stores a freeform type label, never read by any embedded function, so it
is omitted here. -/
structure TraumaMemory where
  timestamp : ℚ
  severity : ℚ
deriving DecidableEq

/-- An entity (NPC). The source stores the id as a database string; the
embedding uses a natural number, only ever compared for equality. -/
structure NPC where
  id : ℕ
  x : ℚ
  y : ℚ
  energy : ℚ
  social : ℚ
  safety : ℚ
  stress : ℚ
  despair : ℚ
  mentalBreakpoint : ℚ
  personality : Personality
  traumaMemories : List TraumaMemory

/-- ISOLATION_WEIGHT from the dark-psychology module. -/
def ISOLATION_WEIGHT : ℚ := 0.35

/-- STARVATION_WEIGHT from the dark-psychology module. -/
def STARVATION_WEIGHT : ℚ := 0.30

/-- CHRONIC_STRESS_THRESHOLD from the dark-psychology module. -/
def CHRONIC_STRESS_THRESHOLD : ℚ := 0.6

/-- TRAUMA_TO_DESPAIR from the dark-psychology module. -/
def TRAUMA_TO_DESPAIR : ℚ := 0.25

/-- EMPATHY_BUFFER from the dark-psychology module. -/
def EMPATHY_BUFFER : ℚ := 0.20

/-- CORNERED_WEIGHT from the dark-psychology module. -/
def CORNERED_WEIGHT : ℚ := 0.35

/-- FRUSTRATED_WEIGHT from the dark-psychology module. -/
def FRUSTRATED_WEIGHT : ℚ := 0.25

/-- TRAUMA_TO_AGGRESSION from the dark-psychology module. -/
def TRAUMA_TO_AGGRESSION : ℚ := 0.20

/-- LOW_EMPATHY_WEIGHT from the dark-psychology module. -/
def LOW_EMPATHY_WEIGHT : ℚ := 0.25

/-- DESPERATION_THRESHOLD from the dark-psychology module. -/
def DESPERATION_THRESHOLD : ℚ := 0.7

/-- SUICIDE_BASE_RATE from the dark-psychology module. -/
def SUICIDE_BASE_RATE : ℚ := 0.0008

/-- MURDER_BASE_RATE from the dark-psychology module. -/
def MURDER_BASE_RATE : ℚ := 0.0004

/-- calculateDespair from the dark-psychology module. The worldTime argument
is present in the source signature and unused there as well. -/
def calculateDespair (npc : NPC) (worldTime : ℚ) : ℚ :=
  let isolation := (1 - npc.social) ^ 2 * ISOLATION_WEIGHT
  let starvation := (1 - npc.energy) ^ 2 * STARVATION_WEIGHT
  let chronicStress : ℚ := if npc.stress > CHRONIC_STRESS_THRESHOLD then 0.3 else 0
  let traumaLoad := npc.mentalBreakpoint * TRAUMA_TO_DESPAIR
  let hopelessness := (1 - npc.personality.mood) * 0.25
  let empathyBuffer := npc.personality.empathy * EMPATHY_BUFFER
  max 0 (min 1
    (isolation + starvation + chronicStress + traumaLoad + hopelessness - empathyBuffer))

/-- calculateAggression from the dark-psychology module. Note that the source
applies Math.min(1.0, ...) but no lower clamp. -/
def calculateAggression (npc : NPC) (worldTime : ℚ) : ℚ :=
  let cornered := (1 - npc.safety) * CORNERED_WEIGHT
  let frustrated := npc.stress * FRUSTRATED_WEIGHT
  let traumatized := npc.mentalBreakpoint * TRAUMA_TO_AGGRESSION
  let darkPersonality := (1 - npc.personality.empathy) * LOW_EMPATHY_WEIGHT
  let willingToAct := npc.personality.boldness * 0.15
  let desperation : ℚ := if npc.energy < DESPERATION_THRESHOLD then 0.25 else 0
  min 1 (cornered + frustrated + traumatized + darkPersonality + willingToAct + desperation)

/-- Weight of one trauma memory at a given world time: severity scaled by the
time multiplier 1 + timeSince * 0.008, as in processTrauma. -/
def traumaWeight (worldTime : ℚ) (t : TraumaMemory) : ℚ :=
  t.severity * (1 + (worldTime - t.timestamp) * 0.008)

/-- processTrauma from the dark-psychology module: with no trauma memories the
breakpoint decays by 0.01 toward 0; otherwise memories younger than 100
simulated minutes are summed with time-amplified weights and mapped through
the fixed divisor 4, capped at 1. -/
def processTrauma (npc : NPC) (worldTime : ℚ) : ℚ :=
  if npc.traumaMemories.isEmpty then
    max 0 (npc.mentalBreakpoint - 0.01)
  else
    let recentTraumas := npc.traumaMemories.filter
      (fun t => decide (worldTime - t.timestamp < 100))
    let traumaLoad := (recentTraumas.map (traumaWeight worldTime)).sum
    min 1 (traumaLoad / 4)

/-- shouldAttemptSuicide from the dark-psychology module. The single call to
the global Math.random() is modelled as the explicit argument rand. -/
def shouldAttemptSuicide (despair : ℚ) (rand : ℚ) : Bool :=
  if despair < 0.75 then false
  else decide (rand < despair * SUICIDE_BASE_RATE)

/-- shouldAttemptMurder from the dark-psychology module. The single call to
the global Math.random() is modelled as the explicit argument rand. -/
def shouldAttemptMurder (aggression : ℚ) (hasNearbyVictim : Bool) (rand : ℚ) : Bool :=
  if !hasNearbyVictim then false
  else if aggression < 0.65 then false
  else decide (rand < aggression * MURDER_BASE_RATE)

/-- The closed set of candidate actions of the utility decision engine. -/
inductive UtilityAction where
  | SEEK_FOOD
  | SOCIALIZE
  | EXPLORE
  | AVOID_HEAT
  | LOITER
  | SEEK_SAFETY
  | SEEK_FAITH
deriving DecidableEq

/-- The named field layers of the scalar-field grid. -/
inductive FieldType where
  | heat
  | food
  | trauma
deriving DecidableEq

/-- GRID_WIDTH from the fields module. -/
def GRID_WIDTH : ℕ := 30

/-- GRID_HEIGHT from the fields module. -/
def GRID_HEIGHT : ℕ := 17

/-- CELL_SIZE from the fields module (30 world units per cell). -/
def CELL_SIZE {A : Type} [LinearOrderedField A] : A := 30

/-- One cached field cell as passed to the decision engine (gridX, gridY,
type, value). -/
structure FieldCell where
  gridX : ℕ
  gridY : ℕ
  type : FieldType
  value : ℚ

/-- sampleFieldFromCache from convex/drives.ts: floor the world coordinates to
a grid index, clamp to the grid bounds, and return the first matching cached
cell value, or 0 when the layer has no cached cell there. -/
def sampleFieldFromCache (x y : ℚ) (t : FieldType) (fieldCache : List FieldCell) : ℚ :=
  let gridX : ℤ := ⌊x / (CELL_SIZE : ℚ)⌋
  let gridY : ℤ := ⌊y / (CELL_SIZE : ℚ)⌋
  let clampedX : ℤ := max 0 (min ((GRID_WIDTH : ℤ) - 1) gridX)
  let clampedY : ℤ := max 0 (min ((GRID_HEIGHT : ℤ) - 1) gridY)
  match fieldCache.find?
      (fun c => decide (c.type = t ∧ (c.gridX : ℤ) = clampedX ∧ (c.gridY : ℤ) = clampedY)) with
  | some cell => cell.value
  | none => 0

/-- The comparison distance(x1,y1,x2,y2) < radius from convex/drives.ts.
The source computes Math.sqrt(dx*dx + dy*dy) < radius; for the positive radii
used by every caller this is equivalent to comparing squares, which keeps the
embedding inside the rationals. -/
def distLt (x1 y1 x2 y2 radius : ℚ) : Prop :=
  (x2 - x1) ^ 2 + (y2 - y1) ^ 2 < radius ^ 2

instance (x1 y1 x2 y2 radius : ℚ) : Decidable (distLt x1 y1 x2 y2 radius) := by
  unfold distLt; infer_instance

/-- countNearbyNPCs from convex/drives.ts: the number of other entities within
the given radius. -/
def countNearbyNPCs (entity : NPC) (allNPCs : List NPC) (radius : ℚ) : ℕ :=
  (allNPCs.filter
    (fun other => decide (other.id ≠ entity.id ∧ distLt entity.x entity.y other.x other.y radius))).length

/-- The per-tick utility score of each action; the UtilityScores interface of
convex/drives.ts. -/
structure UtilityScores where
  SEEK_FOOD : ℚ
  SOCIALIZE : ℚ
  EXPLORE : ℚ
  AVOID_HEAT : ℚ
  LOITER : ℚ
  SEEK_SAFETY : ℚ
  SEEK_FAITH : ℚ

/-- The score entries in the fixed insertion order of the scores object
literal of decideAction, the order Object.entries iterates. -/
def scoresList (s : UtilityScores) : List (UtilityAction × ℚ) :=
  [(UtilityAction.SEEK_FOOD, s.SEEK_FOOD),
   (UtilityAction.SOCIALIZE, s.SOCIALIZE),
   (UtilityAction.EXPLORE, s.EXPLORE),
   (UtilityAction.AVOID_HEAT, s.AVOID_HEAT),
   (UtilityAction.LOITER, s.LOITER),
   (UtilityAction.SEEK_SAFETY, s.SEEK_SAFETY),
   (UtilityAction.SEEK_FAITH, s.SEEK_FAITH)]

/-- argmax from convex/drives.ts: scan the entries in order, keeping the first
strictly greater score; the initial score -Infinity (below every number) is
modelled as none, and the initial action is LOITER. -/
def argmax (scores : UtilityScores) : UtilityAction :=
  ((scoresList scores).foldl
    (fun acc p =>
      match acc.2 with
      | none => (p.1, some p.2)
      | some m => if p.2 > m then (p.1, some p.2) else acc)
    (UtilityAction.LOITER, (none : Option ℚ))).1

/-- decideAction from convex/drives.ts (the version with the
personality-weighting pass and per-entity jitter). The jitter added to each
score in the source is staticBias + timeWave, a fixed pure function of the
entity id, the action and the coarse time bucket computed through a string
hash and Math.sin; the embedding takes that per-action jitter as the explicit
argument jitter, since its value is what the source adds to each score.
Booleans used in arithmetic (crowded) follow the JavaScript coercion to 0/1. -/
def decideAction (entity : NPC) (allNPCs : List NPC) (fieldCache : List FieldCell)
    (jitter : UtilityAction → ℚ) : UtilityAction :=
  let energy := entity.energy
  let social := entity.social
  let safety := entity.safety
  let stress := entity.stress
  let mood := entity.personality.mood
  let localHeat := sampleFieldFromCache entity.x entity.y FieldType.heat fieldCache
  let localFood := sampleFieldFromCache entity.x entity.y FieldType.food fieldCache
  let localTrauma := sampleFieldFromCache entity.x entity.y FieldType.trauma fieldCache
  let nearbyCount : ℚ := (countNearbyNPCs entity allNPCs 80 : ℚ)
  let crowded : ℚ := if nearbyCount > 3 then 1 else 0
  let hungerUrgency := clamp01 (1 - energy)
  let foodAvailable := clamp01 localFood
  let seekFoodScore :=
    0.7 * hungerUrgency + 0.2 * (1 - foodAvailable) + 0.1 * (nearbyCount / 5)
  let lonelinessUrgency := clamp01 (1 - social)
  let socializeScore :=
    0.8 * lonelinessUrgency + 0.3 * (nearbyCount / 5) + 0.2 * entity.personality.empathy
      + (-0.4) * localHeat + (-0.2) * crowded
  let exploreScore :=
    0.7 * entity.personality.curiosity + 0.2 * energy + (-0.3) * localHeat
      + (-0.2) * hungerUrgency + (-0.1) * lonelinessUrgency
  let dangerLevel := clamp01 (localHeat + localTrauma * 0.5)
  let avoidHeatScore :=
    0.8 * dangerLevel + 0.3 * stress + 0.2 * (1 - entity.personality.boldness)
      + 0.1 * (if nearbyCount > 0 then (0.3 : ℚ) else 0)
  let comfortLevel := clamp01 (1 - localHeat)
  let loiterScore :=
    0.4 * comfortLevel + 0.3 * energy + 0.2 * social
      + 0.1 * (1 - entity.personality.curiosity) + (-0.3) * hungerUrgency
      + (-0.2) * lonelinessUrgency
  let seekSafetyScore :=
    0.6 * stress + 0.4 * dangerLevel + 0.2 * (1 - energy) + 0.1 * entity.personality.order
  let despair := entity.despair
  let traumaCount : ℚ := (entity.traumaMemories.length : ℚ)
  let traumaUrgency := clamp01 (traumaCount / 5)
  let seekFaithScore :=
    0.4 * despair + 0.3 * (1 - mood) + 0.3 * entity.personality.order + 0.5 * stress
      + 0.4 * traumaUrgency + 0.3 * localTrauma + (-0.3) * entity.personality.boldness
      + 0.2 * (1 - energy)
  let empathy := clamp01 entity.personality.empathy
  let curiosity := clamp01 entity.personality.curiosity
  let weirdness := clamp01 entity.personality.weirdness
  let boldness := clamp01 entity.personality.boldness
  let orderTrait := clamp01 entity.personality.order
  let scores : UtilityScores := {
    SEEK_FOOD := seekFoodScore + ((1 - boldness) * 0.07 + orderTrait * 0.05)
      + jitter UtilityAction.SEEK_FOOD
    SOCIALIZE := socializeScore + (empathy * 0.15 + curiosity * 0.05 - orderTrait * 0.03)
      + jitter UtilityAction.SOCIALIZE
    EXPLORE := exploreScore + (curiosity * 0.18 + weirdness * 0.08 - orderTrait * 0.1)
      + jitter UtilityAction.EXPLORE
    AVOID_HEAT := avoidHeatScore + ((1 - boldness) * 0.08 + stress * 0.02)
      + jitter UtilityAction.AVOID_HEAT
    LOITER := loiterScore + (orderTrait * 0.12 - curiosity * 0.06)
      + jitter UtilityAction.LOITER
    SEEK_SAFETY := seekSafetyScore + (orderTrait * 0.1 + (1 - boldness) * 0.05 + (1 - safety) * 0.04)
      + jitter UtilityAction.SEEK_SAFETY
    SEEK_FAITH := seekFaithScore + ((1 - boldness) * 0.04 + (1 - mood) * 0.05 + weirdness * 0.02)
      + jitter UtilityAction.SEEK_FAITH }
  argmax scores

/-- applyEmotionalContagion from convex/drives.ts: each participant shifts
toward the average mood by an empathy-scaled delta that is itself clamped to
the unit interval before being added; returns (mood1, mood2). -/
def applyEmotionalContagion (npc1 npc2 : NPC) : ℚ × ℚ :=
  let mood1 := npc1.personality.mood
  let mood2 := npc2.personality.mood
  let avgMood := (mood1 + mood2) / 2
  let empathy1 := npc1.personality.empathy
  let empathy2 := npc2.personality.empathy
  let delta1 := clamp01 ((avgMood - mood1) * 0.3 * empathy1)
  let delta2 := clamp01 ((avgMood - mood2) * 0.3 * empathy2)
  (clamp01 (mood1 + delta1), clamp01 (mood2 + delta2))

/-- A field layer as a grid of scalar values indexed by row (gridY) and
column (gridX); only indices below GRID_HEIGHT and GRID_WIDTH are cells of
the world. Polymorphic in the scalar type so that the same definitions serve
exact rational computation and the real-valued invariant proofs. -/
abbrev Grid (A : Type) : Type := ℕ → ℕ → A

/-- Per-layer diffusion rates from the fields module. -/
def diffusionRate {A : Type} [LinearOrderedField A] : FieldType → A
  | FieldType.heat => 0.12
  | FieldType.food => 0.05
  | FieldType.trauma => 0.08

/-- Per-layer evaporation rates from the fields module. -/
def evaporationRate {A : Type} [LinearOrderedField A] : FieldType → A
  | FieldType.heat => 0.02
  | FieldType.food => 0.01
  | FieldType.trauma => 0.005

/-- FOOD_REGROWTH_RATE from the fields module. -/
def FOOD_REGROWTH_RATE {A : Type} [LinearOrderedField A] : A := 0.002

/-- FOOD_REGROWTH_CAP from the fields module. -/
def FOOD_REGROWTH_CAP {A : Type} [LinearOrderedField A] : A := 0.8

/-- The 4-connected neighbor values collected by diffuseField, in the push
order of the source: up, down, left, right, each guarded by the same bounds
test. -/
def neighborValues {A : Type} (g : Grid A) (y x : ℕ) : List A :=
  (if 0 < y then [g (y - 1) x] else [])
    ++ (if y < GRID_HEIGHT - 1 then [g (y + 1) x] else [])
    ++ (if 0 < x then [g y (x - 1)] else [])
    ++ (if x < GRID_WIDTH - 1 then [g y (x + 1)] else [])

/-- The unweighted neighbor average used by diffuseField; when the neighbor
list is empty the source falls back to the current value. -/
def avgNeighbor {A : Type} [LinearOrderedField A] (g : Grid A) (y x : ℕ) : A :=
  let ns := neighborValues g y x
  if 0 < ns.length then ns.sum / (ns.length : A) else g y x

/-- The blended cell value computed by diffuseField before the write
threshold: old * (1 - rate) + neighbor average * rate. -/
def diffuseValue {A : Type} [LinearOrderedField A] (t : FieldType) (g : Grid A) (y x : ℕ) : A :=
  g y x * (1 - diffusionRate t) + avgNeighbor g y x * diffusionRate t

/-- diffuseField from the fields module: every cell is blended with its
neighbor average, but the database write is skipped when the change does not
exceed 0.001, leaving the old value in place. -/
def diffuseField {A : Type} [LinearOrderedField A] (t : FieldType) (g : Grid A) : Grid A :=
  fun y x =>
    let newValue := diffuseValue t g y x
    if |newValue - g y x| > 0.001 then newValue else g y x

/-- evaporateField from the fields module: cells above the 0.01 threshold
decay by the per-layer evaporation rate (floored at 0); cells at or below the
threshold are not written and keep their value. -/
def evaporateField {A : Type} [LinearOrderedField A] (t : FieldType) (g : Grid A) : Grid A :=
  fun y x =>
    if g y x > 0.01 then max 0 (g y x * (1 - evaporationRate t)) else g y x

/-- regrowFood from the fields module: food cells whose center lies within
100 units of the cafe (640, 305) or 90 units of the park (250, 180) and whose
value is below the cap increase by the regrowth rate, capped. The source
compares squared distances, as embedded here. -/
def regrowFood {A : Type} [LinearOrderedField A] (g : Grid A) : Grid A :=
  fun y x =>
    let worldX : A := (x : A) * CELL_SIZE + CELL_SIZE / 2
    let worldY : A := (y : A) * CELL_SIZE + CELL_SIZE / 2
    let cafeDistSq := (worldX - 640) ^ 2 + (worldY - 305) ^ 2
    let parkDistSq := (worldX - 250) ^ 2 + (worldY - 180) ^ 2
    let isNearLandmark := cafeDistSq < 100 * 100 ∨ parkDistSq < 90 * 90
    if isNearLandmark ∧ g y x < FOOD_REGROWTH_CAP then
      min FOOD_REGROWTH_CAP (g y x + FOOD_REGROWTH_RATE)
    else g y x

/-- modifyField from the fields module: add delta scaled by a linear falloff
(1 at the center cell, 0 at cellRadius cells away) to every cell in the
clamped bounding box whose falloff is positive, re-clamping each written cell
to the unit interval. The falloff uses Math.sqrt of an integer, so this
definition lives over the reals. -/
noncomputable def modifyField (x y : ℝ) (delta : ℝ) (radius : ℝ) (g : Grid ℝ) : Grid ℝ :=
  let centerGridX : ℤ := ⌊x / (CELL_SIZE : ℝ)⌋
  let centerGridY : ℤ := ⌊y / (CELL_SIZE : ℝ)⌋
  let cellRadius : ℤ := ⌈radius / (CELL_SIZE : ℝ)⌉
  fun gy gx =>
    if max 0 (centerGridX - cellRadius) ≤ (gx : ℤ)
        ∧ (gx : ℤ) ≤ min ((GRID_WIDTH : ℤ) - 1) (centerGridX + cellRadius)
        ∧ max 0 (centerGridY - cellRadius) ≤ (gy : ℤ)
        ∧ (gy : ℤ) ≤ min ((GRID_HEIGHT : ℤ) - 1) (centerGridY + cellRadius) then
      let dx : ℝ := (((gx : ℤ) - centerGridX : ℤ) : ℝ)
      let dy : ℝ := (((gy : ℤ) - centerGridY : ℤ) : ℝ)
      let distanceInCells := Real.sqrt (dx * dx + dy * dy)
      let falloff := max 0 (1 - distanceInCells / (cellRadius : ℝ))
      if falloff > 0 then clamp01 (g gy gx + delta * falloff) else g gy gx
    else g gy gx

/-- The full field state: one grid per named layer. -/
abbrev Fields : Type := FieldType → Grid ℝ

/-- One invocation of a field mutation of the fields module. -/
inductive FieldOp where
  | modify (x y : ℝ) (t : FieldType) (delta : ℝ) (radius : ℝ)
  | diffuse (t : FieldType)
  | evaporate (t : FieldType)
  | regrow

/-- Apply one field operation to the field state; each operation touches only
the layer it names (regrowFood touches only the food layer). -/
noncomputable def applyFieldOp (op : FieldOp) (f : Fields) : Fields :=
  match op with
  | FieldOp.modify x y t delta radius =>
      fun s => if s = t then modifyField x y delta radius (f t) else f s
  | FieldOp.diffuse t => fun s => if s = t then diffuseField t (f t) else f s
  | FieldOp.evaporate t => fun s => if s = t then evaporateField t (f t) else f s
  | FieldOp.regrow => fun s => if s = FieldType.food then regrowFood (f FieldType.food) else f s

/-- Apply a sequence of field operations in order. -/
noncomputable def applyFieldOps (ops : List FieldOp) (f : Fields) : Fields :=
  ops.foldl (fun acc op => applyFieldOp op acc) f

/-- Every cell of the world grid holds a value in the unit interval. -/
def GridInUnit (g : Grid ℝ) : Prop :=
  ∀ y x : ℕ, y < GRID_HEIGHT → x < GRID_WIDTH → 0 ≤ g y x ∧ g y x ≤ 1

/-- Every layer satisfies the unit-interval cell invariant. -/
def FieldsInUnit (f : Fields) : Prop :=
  ∀ t : FieldType, GridInUnit (f t)

/-- Total summed value over all world cells of a layer. -/
def totalMass {A : Type} [LinearOrderedField A] (g : Grid A) : A :=
  ∑ y ∈ Finset.range GRID_HEIGHT, ∑ x ∈ Finset.range GRID_WIDTH, g y x

/-- A cell at least two cells away from every edge of the grid: the cell and
all four of its neighbors have four in-bounds neighbors. -/
def deepInterior (y x : ℕ) : Prop :=
  2 ≤ y ∧ y + 2 < GRID_HEIGHT ∧ 2 ≤ x ∧ x + 2 < GRID_WIDTH

instance (y x : ℕ) : Decidable (deepInterior y x) := by
  unfold deepInterior; infer_instance

/-- A non-edge cell: all four 4-connected neighbors are in bounds. -/
def innerCell (y x : ℕ) : Prop :=
  1 ≤ y ∧ y + 1 < GRID_HEIGHT ∧ 1 ≤ x ∧ x + 1 < GRID_WIDTH

instance (y x : ℕ) : Decidable (innerCell y x) := by
  unfold innerCell; infer_instance

/-- Boolean check that every edge cell of the world grid holds zero, so all
mass sits on cells with four in-bounds neighbors. -/
def boundaryCellsZero (g : Grid ℚ) : Bool :=
  (List.range GRID_HEIGHT).all fun y =>
    (List.range GRID_WIDTH).all fun x =>
      decide (innerCell y x) || decide (g y x = 0)

/-- Neutral personality: every trait 0.5. -/
def neutralPersonality : Personality :=
  { curiosity := 0.5, empathy := 0.5, boldness := 0.5, order := 0.5, mood := 0.5,
    weirdness := 0.5 }

/-- An entity whose numeric fields all sit inside their documented ranges. -/
def neutralNPC : NPC :=
  { id := 0, x := 0, y := 0, energy := 0.5, social := 0.5, safety := 0.5, stress := 0.5,
    despair := 0, mentalBreakpoint := 0, personality := neutralPersonality,
    traumaMemories := [] }

/-- An entity with malformed upstream data: safety 10, far outside the unit
interval, with every other field inside its range. -/
def malformedSafetyNPC : NPC :=
  { id := 0, x := 0, y := 0, energy := 1, social := 0.5, safety := 10, stress := 0,
    despair := 0, mentalBreakpoint := 0,
    personality := { curiosity := 0.5, empathy := 1, boldness := 0, order := 0.5,
                     mood := 0.5, weirdness := 0.5 },
    traumaMemories := [] }

/-- The entity of the concrete SEEK_FOOD scenario: energy 0.1, social 0.5,
safety 0.6, stress 0.2, neutral personality, no despair, no trauma. -/
def scenarioEntity : NPC :=
  { id := 1, x := 100, y := 100, energy := 0.1, social := 0.5, safety := 0.6, stress := 0.2,
    despair := 0, mentalBreakpoint := 0, personality := neutralPersonality,
    traumaMemories := [] }

/-- Field cache of the SEEK_FOOD scenario: food 0.8 at the entity cell
(grid 3,3 for world position 100,100), no heat or trauma cells, hence local
heat and trauma sample to 0. -/
def scenarioFieldCache : List FieldCell :=
  [{ gridX := 3, gridY := 3, type := FieldType.food, value := 0.8 }]

/-- A layer whose cells all hold 0.005, at or below the evaporation
threshold. -/
def residueGrid : Grid ℚ := fun _ _ => 0.005

/-- A layer whose cells all hold 0.5, above the evaporation threshold. -/
def halfGrid : Grid ℚ := fun _ _ => 0.5

/-- A layer holding unit mass at cell (row 1, column 1): not a boundary cell
(all four neighbors in bounds), but adjacent to two boundary cells. -/
def edgeAdjacentGrid : Grid ℚ := fun y x => if y = 1 ∧ x = 1 then 1 else 0

/-- A layer holding unit mass at the central cell (row 8, column 15), at
least two cells from every edge. -/
def centerGrid : Grid ℚ := fun y x => if y = 8 ∧ x = 15 then 1 else 0

/-- The explicit result of one heat diffuseField step on edgeAdjacentGrid:
the source cell keeps 0.88, its two boundary neighbors receive one third of
the diffused share (their neighbor average is 1/3), its two inner neighbors
receive one quarter, and every other cell stays zero. -/
def edgeAdjacentDiffused : Grid ℚ := fun y x =>
  if y = 1 ∧ x = 1 then 0.88
  else if (y = 0 ∧ x = 1) ∨ (y = 1 ∧ x = 0) then 1 / 25
  else if (y = 2 ∧ x = 1) ∨ (y = 1 ∧ x = 2) then 3 / 100
  else 0

/-- The all-zero field state. -/
def zeroFields : Fields := fun _ _ _ => 0

/-- A clamped value always lies in the unit interval. -/
theorem clamp01_mem_unit {A : Type} [LinearOrderedField A] (v : A) :
    0 ≤ clamp01 v ∧ clamp01 v ≤ 1 :=
  ⟨le_max_left 0 _, max_le (by norm_num) (min_le_left 1 v)⟩

/-- Adding a nonnegative clamped delta to a value at most 1 does not decrease
it through the final clamp. -/
theorem le_clamp01_add {A : Type} [LinearOrderedField A] {m d : A} (hm : m ≤ 1) (hd : 0 ≤ d) :
    m ≤ clamp01 (m + d) :=
  le_trans (le_min hm (by linarith)) (le_max_right 0 _)

/-- C4: shouldAttemptSuicide returns false for every despair level below
0.75 whatever the random draw, and shouldAttemptMurder returns false whenever
there is no nearby victim and also whenever aggression is below 0.65,
whatever the random draw. -/
theorem darkAction_thresholds :
    (∀ despair rand : ℚ, despair < 0.75 → shouldAttemptSuicide despair rand = false) ∧
    (∀ aggression rand : ℚ, ∀ hasNearbyVictim : Bool,
      hasNearbyVictim = false ∨ aggression < 0.65 →
      shouldAttemptMurder aggression hasNearbyVictim rand = false) := by
  constructor
  · intro despair rand h
    simp [shouldAttemptSuicide, h]
  · intro aggression rand v h
    rcases h with h | h
    · subst h
      simp [shouldAttemptMurder]
    · cases v
      · simp [shouldAttemptMurder]
      · simp [shouldAttemptMurder, h]

/-- Witness for darkAction_thresholds at concrete inputs. -/
theorem darkAction_thresholds_witness :
    shouldAttemptSuicide 0.5 0 = false ∧
    shouldAttemptMurder 0.9 false 0 = false ∧
    shouldAttemptMurder 0.5 true 0 = false :=
  ⟨darkAction_thresholds.1 0.5 0 (by norm_num),
   darkAction_thresholds.2 0.9 0 false (Or.inl rfl),
   darkAction_thresholds.2 0.5 0 true (Or.inr (by norm_num))⟩

/-- C1 counterexample: with the listed inputs held fixed (despair 0.8, any
seed), two valid values of the global Math.random draw give different
shouldAttemptSuicide outputs, so the dark-action checks are not a pure
function of (entity snapshot, field snapshot, world time, seed): their draw
comes from the unseeded global generator, not from an injected seedable
one. -/
theorem shouldAttemptSuicide_depends_on_unseeded_draw :
    (0 ≤ (0.0001 : ℚ) ∧ (0.0001 : ℚ) < 1) ∧
    (0 ≤ (0.5 : ℚ) ∧ (0.5 : ℚ) < 1) ∧
    shouldAttemptSuicide 0.8 0.0001 = true ∧
    shouldAttemptSuicide 0.8 0.5 = false := by
  norm_num [shouldAttemptSuicide, SUICIDE_BASE_RATE]

/-- C1 amended: each dark-action check is a pure function of its numeric
inputs together with the one value drawn from the global random source;
holding that draw fixed determines the output completely, while the
counterexample shows the draw is an input the listed tuple does not
determine. -/
theorem darkActions_determined_by_inputs_and_draw :
    (∀ despair rand : ℚ,
      shouldAttemptSuicide despair rand = true ↔
        0.75 ≤ despair ∧ rand < despair * SUICIDE_BASE_RATE) ∧
    (∀ aggression rand : ℚ, ∀ v : Bool,
      shouldAttemptMurder aggression v rand = true ↔
        v = true ∧ 0.65 ≤ aggression ∧ rand < aggression * MURDER_BASE_RATE) := by
  constructor
  · intro despair rand
    unfold shouldAttemptSuicide
    split_ifs with h
    · exact iff_of_false (by simp) (fun hc => absurd hc.1 (not_le.mpr h))
    · simp [not_lt.mp h]
  · intro aggression rand v
    unfold shouldAttemptMurder
    cases v
    · simp
    · simp only [Bool.not_true, Bool.false_eq_true, if_false, true_and]
      split_ifs with h
      · exact iff_of_false (by simp) (fun hc => absurd hc.1 (not_le.mpr h))
      · simp [not_lt.mp h]

/-- C3 counterexample: calculateAggression on an entity whose safety is the
malformed value 10 returns a value outside the unit interval (the source has
no lower clamp, so the negative cornered term survives). -/
theorem calculateAggression_escapes_range_on_malformed_input :
    ¬ (0 ≤ calculateAggression malformedSafetyNPC 0 ∧
        calculateAggression malformedSafetyNPC 0 ≤ 1) := by
  norm_num [calculateAggression, malformedSafetyNPC, CORNERED_WEIGHT, FRUSTRATED_WEIGHT,
    TRAUMA_TO_AGGRESSION, LOW_EMPATHY_WEIGHT, DESPERATION_THRESHOLD]

/-- C3 amended: when the upstream fields read by calculateAggression lie in
their documented unit ranges the result lies in the unit interval; the upper
bound holds unconditionally via the upper clamp, but malformed inputs outside
the unit interval can drive the result below 0. -/
theorem calculateAggression_in_unit_interval (npc : NPC) (wt : ℚ)
    (hsafety : 0 ≤ npc.safety ∧ npc.safety ≤ 1)
    (hstress : 0 ≤ npc.stress ∧ npc.stress ≤ 1)
    (hbp : 0 ≤ npc.mentalBreakpoint ∧ npc.mentalBreakpoint ≤ 1)
    (hemp : 0 ≤ npc.personality.empathy ∧ npc.personality.empathy ≤ 1)
    (hbold : 0 ≤ npc.personality.boldness ∧ npc.personality.boldness ≤ 1) :
    0 ≤ calculateAggression npc wt ∧ calculateAggression npc wt ≤ 1 := by
  unfold calculateAggression
  refine ⟨le_min (by norm_num) ?_, min_le_left _ _⟩
  simp only [CORNERED_WEIGHT, FRUSTRATED_WEIGHT, TRAUMA_TO_AGGRESSION, LOW_EMPATHY_WEIGHT,
    DESPERATION_THRESHOLD]
  split_ifs with h
  · nlinarith [hsafety.2, hstress.1, hbp.1, hemp.2, hbold.1]
  · nlinarith [hsafety.2, hstress.1, hbp.1, hemp.2, hbold.1]

/-- Witness for calculateAggression_in_unit_interval at an in-range entity. -/
theorem calculateAggression_in_unit_interval_witness :
    0 ≤ calculateAggression neutralNPC 0 ∧ calculateAggression neutralNPC 0 ≤ 1 :=
  calculateAggression_in_unit_interval neutralNPC 0
    (by norm_num [neutralNPC]) (by norm_num [neutralNPC]) (by norm_num [neutralNPC])
    (by norm_num [neutralNPC, neutralPersonality]) (by norm_num [neutralNPC, neutralPersonality])

/-- C5 counterexample: a cell holding 0.005 (at or below the 0.01 threshold)
is left at 0.005 by evaporateField, not at zero. -/
theorem evaporateField_small_cell_not_zeroed :
    residueGrid 0 0 ≤ 0.01 ∧
    evaporateField FieldType.heat residueGrid 0 0 = 0.005 ∧
    (0.005 : ℚ) ≠ 0 := by
  norm_num [residueGrid, evaporateField, evaporationRate]

/-- C5 amended: after one evaporateField step, a cell strictly above the 0.01
threshold holds exactly its prior value times (1 - rate); a cell at or below
the threshold keeps its prior value unchanged (so a zero cell stays zero). -/
theorem evaporateField_characterization {A : Type} [LinearOrderedField A]
    (t : FieldType) (g : Grid A) (y x : ℕ) :
    (0.01 < g y x → evaporateField t g y x = g y x * (1 - evaporationRate t)) ∧
    (g y x ≤ 0.01 → evaporateField t g y x = g y x) := by
  constructor
  · intro h
    unfold evaporateField
    rw [if_pos h]
    have hr : evaporationRate (A := A) t ≤ 0.02 := by
      rcases t <;> norm_num [evaporationRate]
    have h1 : (0 : A) < g y x := lt_trans (by norm_num) h
    have h2 : (0 : A) < 1 - evaporationRate t := by linarith
    exact max_eq_right (le_of_lt (mul_pos h1 h2))
  · intro h
    unfold evaporateField
    rw [if_neg (not_lt.mpr h)]

/-- Witness for evaporateField_characterization on both sides of the
threshold. -/
theorem evaporateField_characterization_witness :
    evaporateField FieldType.heat halfGrid 0 0 = 0.5 * (1 - 0.02) ∧
    evaporateField FieldType.heat residueGrid 0 0 = 0.005 := by
  constructor
  · have h := (evaporateField_characterization FieldType.heat halfGrid 0 0).1
      (by norm_num [halfGrid])
    rw [h]
    norm_num [halfGrid, evaporationRate]
  · have h := (evaporateField_characterization FieldType.heat residueGrid 0 0).2
      (by norm_num [residueGrid])
    rw [h]
    norm_num [residueGrid]

/-- C7: a single trauma memory of severity 0.8 contributes strictly more to
processTrauma ten minutes after the event than one minute after the event:
within the 100-minute recency window the contribution grows with elapsed
time. -/
theorem processTrauma_time_amplification (npc : NPC) (t : ℚ) :
    processTrauma { npc with traumaMemories := [{ timestamp := t - 1, severity := 0.8 }] } t
      < processTrauma { npc with traumaMemories := [{ timestamp := t - 10, severity := 0.8 }] } t := by
  have h1 : t - (t - 1) = (1 : ℚ) := by ring
  have h10 : t - (t - 10) = (10 : ℚ) := by ring
  unfold processTrauma
  simp only [List.isEmpty_cons, Bool.false_eq_true, if_false, List.filter, List.map,
    List.sum_cons, List.sum_nil, traumaWeight, h1, h10]
  norm_num

/-- C8: in the concrete scenario (energy 0.1, social 0.5, safety 0.6, stress
0.2, neutral personality, local food 0.8, no local heat or trauma, no nearby
entities, despair 0, no trauma memories, zero jitter), decideAction selects
SEEK_FOOD. -/
theorem decideAction_seek_food_scenario :
    decideAction scenarioEntity [] scenarioFieldCache (fun _ => 0) = UtilityAction.SEEK_FOOD := by
  norm_num +decide [decideAction, scenarioEntity, scenarioFieldCache, neutralPersonality,
    sampleFieldFromCache, countNearbyNPCs, clamp01, argmax, scoresList, CELL_SIZE,
    GRID_WIDTH, GRID_HEIGHT, List.find?, List.filter]

/-- C10: emotional contagion never lowers either mood when the stored moods
lie in their documented unit range: each shift toward the average mood is
clamped to the unit interval before being added, so downward shifts are
discarded and the higher-mood participant is not pulled down. -/
theorem applyEmotionalContagion_mood_nondecreasing (npc1 npc2 : NPC)
    (h1 : 0 ≤ npc1.personality.mood ∧ npc1.personality.mood ≤ 1)
    (h2 : 0 ≤ npc2.personality.mood ∧ npc2.personality.mood ≤ 1) :
    npc1.personality.mood ≤ (applyEmotionalContagion npc1 npc2).1 ∧
    npc2.personality.mood ≤ (applyEmotionalContagion npc1 npc2).2 :=
  ⟨le_clamp01_add h1.2 (clamp01_mem_unit _).1,
   le_clamp01_add h2.2 (clamp01_mem_unit _).1⟩

/-- Witness for applyEmotionalContagion_mood_nondecreasing at a concrete
pair. -/
theorem applyEmotionalContagion_mood_nondecreasing_witness :
    neutralNPC.personality.mood ≤ (applyEmotionalContagion neutralNPC scenarioEntity).1 ∧
    scenarioEntity.personality.mood ≤ (applyEmotionalContagion neutralNPC scenarioEntity).2 :=
  applyEmotionalContagion_mood_nondecreasing neutralNPC scenarioEntity
    (by norm_num [neutralNPC, neutralPersonality])
    (by norm_num [scenarioEntity, neutralPersonality])

/-- C6: with all other inputs fixed, calculateDespair does not decrease as
energy decreases within the unit interval, and does not decrease as social
decreases within the unit interval. -/
theorem calculateDespair_monotone (npc : NPC) (wt : ℚ) :
    (∀ e1 e2 : ℚ, 0 ≤ e1 → e1 ≤ e2 → e2 ≤ 1 →
      calculateDespair { npc with energy := e2 } wt ≤ calculateDespair { npc with energy := e1 } wt) ∧
    (∀ s1 s2 : ℚ, 0 ≤ s1 → s1 ≤ s2 → s2 ≤ 1 →
      calculateDespair { npc with social := s2 } wt ≤ calculateDespair { npc with social := s1 } wt) := by
  constructor
  · intro e1 e2 h0 h12 h21
    unfold calculateDespair
    simp only [ISOLATION_WEIGHT, STARVATION_WEIGHT, TRAUMA_TO_DESPAIR, EMPATHY_BUFFER,
      CHRONIC_STRESS_THRESHOLD]
    gcongr max 0 (min 1 ?_)
    have hsq : (1 - e2) ^ 2 ≤ (1 - e1) ^ 2 := by
      nlinarith [mul_nonneg (sub_nonneg.mpr h12) (by linarith : (0 : ℚ) ≤ 2 - e1 - e2)]
    linarith [hsq]
  · intro s1 s2 h0 h12 h21
    unfold calculateDespair
    simp only [ISOLATION_WEIGHT, STARVATION_WEIGHT, TRAUMA_TO_DESPAIR, EMPATHY_BUFFER,
      CHRONIC_STRESS_THRESHOLD]
    gcongr max 0 (min 1 ?_)
    have hsq : (1 - s2) ^ 2 ≤ (1 - s1) ^ 2 := by
      nlinarith [mul_nonneg (sub_nonneg.mpr h12) (by linarith : (0 : ℚ) ≤ 2 - s1 - s2)]
    linarith [hsq]

/-- Witness for calculateDespair_monotone at concrete energy and social
values. -/
theorem calculateDespair_monotone_witness :
    calculateDespair { neutralNPC with energy := 0.9 } 0
        ≤ calculateDespair { neutralNPC with energy := 0.1 } 0 ∧
    calculateDespair { neutralNPC with social := 0.9 } 0
        ≤ calculateDespair { neutralNPC with social := 0.1 } 0 :=
  ⟨(calculateDespair_monotone neutralNPC 0).1 0.1 0.9 (by norm_num) (by norm_num) (by norm_num),
   (calculateDespair_monotone neutralNPC 0).2 0.1 0.9 (by norm_num) (by norm_num) (by norm_num)⟩

/-- A list of unit-interval values has a sum between 0 and its length. -/
theorem list_mem_unit_sum {l : List ℝ} (h : ∀ v ∈ l, 0 ≤ v ∧ v ≤ 1) :
    0 ≤ l.sum ∧ l.sum ≤ (l.length : ℝ) := by
  induction l with
  | nil => simp
  | cons a tl ih =>
    have ha := h a (List.mem_cons_self a tl)
    have ht := ih (fun v hv => h v (List.mem_cons_of_mem a hv))
    simp only [List.sum_cons, List.length_cons]
    push_cast
    constructor <;> linarith [ha.1, ha.2, ht.1, ht.2]

/-- The neighbor average stays in the unit interval when the neighbors and
the cell itself do. -/
theorem avgNeighbor_mem_unit (g : Grid ℝ) (y x : ℕ)
    (hn : ∀ v ∈ neighborValues g y x, 0 ≤ v ∧ v ≤ 1)
    (hself : 0 ≤ g y x ∧ g y x ≤ 1) :
    0 ≤ avgNeighbor g y x ∧ avgNeighbor g y x ≤ 1 := by
  simp only [avgNeighbor]
  split_ifs with hl
  · have hs := list_mem_unit_sum hn
    have hlen : (0 : ℝ) < ((neighborValues g y x).length : ℝ) := by exact_mod_cast hl
    constructor
    · exact div_nonneg hs.1 (le_of_lt hlen)
    · rw [div_le_one hlen]
      exact hs.2
  · exact hself

/-- Every value pushed into the neighbor list of an in-bounds cell is the
value of an in-bounds cell, hence in the unit interval under the grid
invariant. -/
theorem neighborValues_in_unit (g : Grid ℝ) (hg : GridInUnit g) (y x : ℕ)
    (hy : y < GRID_HEIGHT) (hx : x < GRID_WIDTH) :
    ∀ v ∈ neighborValues g y x, 0 ≤ v ∧ v ≤ 1 := by
  intro v hv
  unfold neighborValues at hv
  rcases List.mem_append.mp hv with hv3 | h4
  · rcases List.mem_append.mp hv3 with hv2 | h3
    · rcases List.mem_append.mp hv2 with h1 | h2
      · by_cases hc : 0 < y
        · rw [if_pos hc, List.mem_singleton] at h1
          subst h1
          exact hg _ _ (by omega) hx
        · rw [if_neg hc] at h1
          exact absurd h1 (List.not_mem_nil v)
      · by_cases hc : y < GRID_HEIGHT - 1
        · rw [if_pos hc, List.mem_singleton] at h2
          subst h2
          exact hg _ _ (by omega) hx
        · rw [if_neg hc] at h2
          exact absurd h2 (List.not_mem_nil v)
    · by_cases hc : 0 < x
      · rw [if_pos hc, List.mem_singleton] at h3
        subst h3
        exact hg _ _ hy (by omega)
      · rw [if_neg hc] at h3
        exact absurd h3 (List.not_mem_nil v)
  · by_cases hc : x < GRID_WIDTH - 1
    · rw [if_pos hc, List.mem_singleton] at h4
      subst h4
      exact hg _ _ hy (by omega)
    · rw [if_neg hc] at h4
      exact absurd h4 (List.not_mem_nil v)

/-- Each diffusion rate is a unit-interval constant. -/
theorem diffusionRate_mem_unit (t : FieldType) :
    0 ≤ diffusionRate (A := ℝ) t ∧ diffusionRate (A := ℝ) t ≤ 1 := by
  rcases t <;> norm_num [diffusionRate]

/-- Each evaporation rate is a unit-interval constant. -/
theorem evaporationRate_mem_unit (t : FieldType) :
    0 ≤ evaporationRate (A := ℝ) t ∧ evaporationRate (A := ℝ) t ≤ 1 := by
  rcases t <;> norm_num [evaporationRate]

/-- One diffuseField step preserves the unit-interval cell invariant. -/
theorem diffuseField_preserves (t : FieldType) (g : Grid ℝ) (hg : GridInUnit g) :
    GridInUnit (diffuseField t g) := by
  intro y x hy hx
  have hself := hg y x hy hx
  have havg := avgNeighbor_mem_unit g y x (neighborValues_in_unit g hg y x hy hx) hself
  have hr := diffusionRate_mem_unit t
  simp only [diffuseField, diffuseValue]
  split_ifs with h
  · constructor
    · nlinarith [mul_nonneg hself.1 (by linarith [hr.2] : (0 : ℝ) ≤ 1 - diffusionRate (A := ℝ) t),
        mul_nonneg havg.1 hr.1]
    · nlinarith [mul_nonneg (by linarith [hself.2] : (0 : ℝ) ≤ 1 - g y x)
          (by linarith [hr.2] : (0 : ℝ) ≤ 1 - diffusionRate (A := ℝ) t),
        mul_nonneg (by linarith [havg.2] : (0 : ℝ) ≤ 1 - avgNeighbor g y x) hr.1]
  · exact hself

/-- One evaporateField step preserves the unit-interval cell invariant. -/
theorem evaporateField_preserves (t : FieldType) (g : Grid ℝ) (hg : GridInUnit g) :
    GridInUnit (evaporateField t g) := by
  intro y x hy hx
  have hself := hg y x hy hx
  have hr := evaporationRate_mem_unit t
  simp only [evaporateField]
  split_ifs with h
  · refine ⟨le_max_left _ _, max_le (by norm_num) ?_⟩
    nlinarith [mul_nonneg hself.1 hr.1]
  · exact hself

/-- One regrowFood step preserves the unit-interval cell invariant. -/
theorem regrowFood_preserves (g : Grid ℝ) (hg : GridInUnit g) :
    GridInUnit (regrowFood g) := by
  intro y x hy hx
  have hself := hg y x hy hx
  simp only [regrowFood]
  split_ifs with h
  · constructor
    · refine le_min (by norm_num [FOOD_REGROWTH_CAP]) ?_
      simp only [FOOD_REGROWTH_RATE]
      linarith [hself.1]
    · exact le_trans (min_le_left _ _) (by norm_num [FOOD_REGROWTH_CAP])
  · exact hself

/-- One modifyField write preserves the unit-interval cell invariant: every
written cell is re-clamped. -/
theorem modifyField_preserves (x y delta radius : ℝ) (g : Grid ℝ) (hg : GridInUnit g) :
    GridInUnit (modifyField x y delta radius g) := by
  intro gy gx hy hx
  simp only [modifyField]
  split_ifs with h1 h2
  · exact clamp01_mem_unit _
  · exact hg gy gx hy hx
  · exact hg gy gx hy hx

/-- Every single field operation preserves the per-layer unit-interval
invariant. -/
theorem applyFieldOp_preserves (op : FieldOp) (f : Fields) (h : FieldsInUnit f) :
    FieldsInUnit (applyFieldOp op f) := by
  intro s
  rcases op with ⟨px, py, t, delta, radius⟩ | t | t | _
  · simp only [applyFieldOp]
    split_ifs with hs
    · exact modifyField_preserves px py delta radius (f t) (h t)
    · exact h s
  · simp only [applyFieldOp]
    split_ifs with hs
    · exact diffuseField_preserves t (f t) (h t)
    · exact h s
  · simp only [applyFieldOp]
    split_ifs with hs
    · exact evaporateField_preserves t (f t) (h t)
    · exact h s
  · simp only [applyFieldOp]
    split_ifs with hs
    · exact regrowFood_preserves (f FieldType.food) (h FieldType.food)
    · exact h s

/-- C2: for every sequence of modifyField, diffuseField, evaporateField and
regrowFood operations applied to a field state whose cells all start in the
unit interval, every cell value remains in the unit interval after every
operation. -/
theorem fieldOps_preserve_unit_interval (ops : List FieldOp) (f : Fields)
    (h : FieldsInUnit f) : FieldsInUnit (applyFieldOps ops f) := by
  induction ops generalizing f with
  | nil => exact h
  | cons op rest ih =>
    have hstep := applyFieldOp_preserves op f h
    simpa only [applyFieldOps, List.foldl_cons] using ih (applyFieldOp op f) hstep

/-- Witness for fieldOps_preserve_unit_interval on a concrete operation
sequence starting from the all-zero field state. -/
theorem fieldOps_preserve_unit_interval_witness :
    FieldsInUnit (applyFieldOps
      [FieldOp.modify 100 100 FieldType.heat 0.5 60, FieldOp.diffuse FieldType.heat,
       FieldOp.evaporate FieldType.food, FieldOp.regrow] zeroFields) :=
  fieldOps_preserve_unit_interval _ zeroFields
    (fun t y x hy hx => by norm_num [zeroFields])

/-- A deep-interior cell is in particular a non-edge cell. -/
theorem deepInterior_imp_innerCell {y x : ℕ} (h : deepInterior y x) : innerCell y x := by
  unfold deepInterior GRID_HEIGHT GRID_WIDTH at h
  unfold innerCell GRID_HEIGHT GRID_WIDTH
  omega

/-- When a cell and its four neighbor positions all hold zero, its neighbor
average is zero. -/
theorem avgNeighbor_eq_zero_of_neighbors_zero {A : Type} [LinearOrderedField A]
    (g : Grid A) (y x : ℕ) (hself : g y x = 0)
    (h1 : g (y - 1) x = 0) (h2 : g (y + 1) x = 0)
    (h3 : g y (x - 1) = 0) (h4 : g y (x + 1) = 0) :
    avgNeighbor g y x = 0 := by
  simp only [avgNeighbor, neighborValues]
  split_ifs <;> simp_all [List.sum_append]

/-- Under a deep-interior support hypothesis, every cell outside the inner
region (in particular every edge cell) has neighbor average zero, since all
positions its neighbor list can read lie outside the deep interior. -/
theorem avgNeighbor_eq_zero_of_not_inner {A : Type} [LinearOrderedField A]
    (g : Grid A) (hsupp : ∀ y x, ¬ deepInterior y x → g y x = 0) (y x : ℕ)
    (hni : ¬ innerCell y x) :
    avgNeighbor g y x = 0 := by
  unfold innerCell GRID_HEIGHT GRID_WIDTH at hni
  refine avgNeighbor_eq_zero_of_neighbors_zero g y x ?_ ?_ ?_ ?_ ?_ <;>
    · apply hsupp
      unfold deepInterior GRID_HEIGHT GRID_WIDTH
      omega

/-- For a non-edge cell the neighbor average is the plain average of its four
neighbor values. -/
theorem avgNeighbor_inner_formula {A : Type} [LinearOrderedField A]
    (g : Grid A) (y x : ℕ) (hin : innerCell y x) :
    avgNeighbor g y x = (g (y - 1) x + g (y + 1) x + g y (x - 1) + g y (x + 1)) / 4 := by
  have hin' := hin
  unfold innerCell GRID_HEIGHT GRID_WIDTH at hin'
  have c1 : 0 < y := by omega
  have c2 : y < GRID_HEIGHT - 1 := by unfold GRID_HEIGHT; omega
  have c3 : 0 < x := by omega
  have c4 : x < GRID_WIDTH - 1 := by unfold GRID_WIDTH; omega
  simp only [avgNeighbor, neighborValues, if_pos c1, if_pos c2, if_pos c3, if_pos c4]
  simp [List.sum_append]
  ring

/-- Summing a deep-interior-supported grid over any index rectangle that
contains the deep interior and sits inside the world grid gives the total
mass. -/
theorem sum_support_eq_totalMass {A : Type} [LinearOrderedField A] (g : Grid A)
    (hsupp : ∀ y x, ¬ deepInterior y x → g y x = 0)
    (S T : Finset ℕ) (hS : S ⊆ Finset.range GRID_HEIGHT) (hT : T ⊆ Finset.range GRID_WIDTH)
    (hS2 : ∀ y, 2 ≤ y → y + 2 < GRID_HEIGHT → y ∈ S)
    (hT2 : ∀ x, 2 ≤ x → x + 2 < GRID_WIDTH → x ∈ T) :
    ∑ y ∈ S, ∑ x ∈ T, g y x = totalMass g := by
  unfold totalMass
  rw [Finset.sum_subset hS (by
    intro y hy hyS
    apply Finset.sum_eq_zero
    intro x hx
    exact hsupp y x (fun hd => hyS (hS2 y hd.1 hd.2.1)))]
  refine Finset.sum_congr rfl (fun y hy => ?_)
  rw [Finset.sum_subset hT (by
    intro x hx hxT
    exact hsupp y x (fun hd => hxT (hT2 x hd.2.2.1 hd.2.2.2)))]

/-- Under the deep-interior support hypothesis, summing the neighbor average
over the whole grid gives the total mass: each unit of interior mass is
redistributed to its four interior neighbors with total weight one. -/
theorem sum_avgNeighbor_eq_totalMass {A : Type} [LinearOrderedField A] (g : Grid A)
    (hsupp : ∀ y x, ¬ deepInterior y x → g y x = 0) :
    ∑ y ∈ Finset.range GRID_HEIGHT, ∑ x ∈ Finset.range GRID_WIDTH, avgNeighbor g y x
      = totalMass g := by
  have hH : GRID_HEIGHT = 17 := rfl
  have hW : GRID_WIDTH = 30 := rfl
  have hIy : Finset.Icc 1 15 ⊆ Finset.range GRID_HEIGHT := by
    intro a ha
    simp only [Finset.mem_Icc] at ha
    simp only [Finset.mem_range, hH]
    omega
  have hIx : Finset.Icc 1 28 ⊆ Finset.range GRID_WIDTH := by
    intro a ha
    simp only [Finset.mem_Icc] at ha
    simp only [Finset.mem_range, hW]
    omega
  have hrows : ∑ y ∈ Finset.range GRID_HEIGHT, ∑ x ∈ Finset.range GRID_WIDTH, avgNeighbor g y x
      = ∑ y ∈ Finset.Icc 1 15, ∑ x ∈ Finset.Icc 1 28, avgNeighbor g y x := by
    rw [← Finset.sum_subset hIy (by
      intro y hy hyI
      apply Finset.sum_eq_zero
      intro x hx
      apply avgNeighbor_eq_zero_of_not_inner g hsupp
      simp only [Finset.mem_Icc, not_and, not_le] at hyI
      unfold innerCell
      rw [hH, hW]
      omega)]
    refine Finset.sum_congr rfl (fun y hy => ?_)
    rw [← Finset.sum_subset hIx (by
      intro x hx hxI
      apply avgNeighbor_eq_zero_of_not_inner g hsupp
      simp only [Finset.mem_Icc, not_and, not_le] at hxI
      unfold innerCell
      rw [hH, hW]
      omega)]
  have hformula : ∑ y ∈ Finset.Icc 1 15, ∑ x ∈ Finset.Icc 1 28, avgNeighbor g y x
      = ∑ y ∈ Finset.Icc 1 15, ∑ x ∈ Finset.Icc 1 28,
          (g (y - 1) x + g (y + 1) x + g y (x - 1) + g y (x + 1)) / 4 := by
    refine Finset.sum_congr rfl (fun y hy => Finset.sum_congr rfl (fun x hx => ?_))
    simp only [Finset.mem_Icc] at hy hx
    refine avgNeighbor_inner_formula g y x ?_
    unfold innerCell
    rw [hH, hW]
    omega
  have hsplit : ∑ y ∈ Finset.Icc 1 15, ∑ x ∈ Finset.Icc 1 28,
      (g (y - 1) x + g (y + 1) x + g y (x - 1) + g y (x + 1)) / 4
      = ((∑ y ∈ Finset.Icc 1 15, ∑ x ∈ Finset.Icc 1 28, g (y - 1) x)
        + (∑ y ∈ Finset.Icc 1 15, ∑ x ∈ Finset.Icc 1 28, g (y + 1) x)
        + (∑ y ∈ Finset.Icc 1 15, ∑ x ∈ Finset.Icc 1 28, g y (x - 1))
        + (∑ y ∈ Finset.Icc 1 15, ∑ x ∈ Finset.Icc 1 28, g y (x + 1))) / 4 := by
    simp only [← Finset.sum_div, Finset.sum_add_distrib]
  have hD1 : ∑ y ∈ Finset.Icc 1 15, ∑ x ∈ Finset.Icc 1 28, g (y - 1) x = totalMass g := by
    have himg : Finset.Icc (1 : ℕ) 15 = Finset.image (· + 1) (Finset.Icc 0 14) :=
      (Finset.image_add_right_Icc 0 14 1).symm
    rw [himg, Finset.sum_image (fun a _ b _ hab => by omega)]
    simp only [Nat.add_sub_cancel]
    refine sum_support_eq_totalMass g hsupp (Finset.Icc 0 14) (Finset.Icc 1 28) ?_ hIx ?_ ?_
    · intro a ha
      simp only [Finset.mem_Icc] at ha
      simp only [Finset.mem_range, hH]
      omega
    · intro a h2 hlt
      rw [hH] at hlt
      simp only [Finset.mem_Icc]
      omega
    · intro a h2 hlt
      rw [hW] at hlt
      simp only [Finset.mem_Icc]
      omega
  have hD2 : ∑ y ∈ Finset.Icc 1 15, ∑ x ∈ Finset.Icc 1 28, g (y + 1) x = totalMass g := by
    have himg : Finset.Icc (1 : ℕ) 15 = Finset.image (fun z => z - 1) (Finset.Icc 2 16) := by
      ext a
      simp only [Finset.mem_Icc, Finset.mem_image]
      constructor
      · intro ha
        exact ⟨a + 1, by omega, by omega⟩
      · rintro ⟨b, hb, rfl⟩
        omega
    rw [himg, Finset.sum_image (fun a ha b hb hab => by
      simp only [Finset.mem_Icc] at ha hb
      omega)]
    rw [Finset.sum_congr rfl (fun z hz => by
      simp only [Finset.mem_Icc] at hz
      rw [show z - 1 + 1 = z from by omega])]
    refine sum_support_eq_totalMass g hsupp (Finset.Icc 2 16) (Finset.Icc 1 28) ?_ hIx ?_ ?_
    · intro a ha
      simp only [Finset.mem_Icc] at ha
      simp only [Finset.mem_range, hH]
      omega
    · intro a h2 hlt
      rw [hH] at hlt
      simp only [Finset.mem_Icc]
      omega
    · intro a h2 hlt
      rw [hW] at hlt
      simp only [Finset.mem_Icc]
      omega
  have hD3 : ∑ y ∈ Finset.Icc 1 15, ∑ x ∈ Finset.Icc 1 28, g y (x - 1) = totalMass g := by
    have hinner : ∀ y, ∑ x ∈ Finset.Icc (1 : ℕ) 28, g y (x - 1)
        = ∑ x ∈ Finset.Icc (0 : ℕ) 27, g y x := by
      intro y
      have himg : Finset.Icc (1 : ℕ) 28 = Finset.image (· + 1) (Finset.Icc 0 27) :=
        (Finset.image_add_right_Icc 0 27 1).symm
      rw [himg, Finset.sum_image (fun a _ b _ hab => by omega)]
      simp only [Nat.add_sub_cancel]
    simp only [hinner]
    refine sum_support_eq_totalMass g hsupp (Finset.Icc 1 15) (Finset.Icc 0 27) hIy ?_ ?_ ?_
    · intro a ha
      simp only [Finset.mem_Icc] at ha
      simp only [Finset.mem_range, hW]
      omega
    · intro a h2 hlt
      rw [hH] at hlt
      simp only [Finset.mem_Icc]
      omega
    · intro a h2 hlt
      rw [hW] at hlt
      simp only [Finset.mem_Icc]
      omega
  have hD4 : ∑ y ∈ Finset.Icc 1 15, ∑ x ∈ Finset.Icc 1 28, g y (x + 1) = totalMass g := by
    have hinner : ∀ y, ∑ x ∈ Finset.Icc (1 : ℕ) 28, g y (x + 1)
        = ∑ x ∈ Finset.Icc (2 : ℕ) 29, g y x := by
      intro y
      have himg : Finset.Icc (1 : ℕ) 28 = Finset.image (fun z => z - 1) (Finset.Icc 2 29) := by
        ext a
        simp only [Finset.mem_Icc, Finset.mem_image]
        constructor
        · intro ha
          exact ⟨a + 1, by omega, by omega⟩
        · rintro ⟨b, hb, rfl⟩
          omega
      rw [himg, Finset.sum_image (fun a ha b hb hab => by
        simp only [Finset.mem_Icc] at ha hb
        omega)]
      refine Finset.sum_congr rfl (fun z hz => ?_)
      simp only [Finset.mem_Icc] at hz
      rw [show z - 1 + 1 = z from by omega]
    simp only [hinner]
    refine sum_support_eq_totalMass g hsupp (Finset.Icc 1 15) (Finset.Icc 2 29) hIy ?_ ?_ ?_
    · intro a ha
      simp only [Finset.mem_Icc] at ha
      simp only [Finset.mem_range, hW]
      omega
    · intro a h2 hlt
      rw [hH] at hlt
      simp only [Finset.mem_Icc]
      omega
    · intro a h2 hlt
      rw [hW] at hlt
      simp only [Finset.mem_Icc]
      omega
  rw [hrows, hformula, hsplit, hD1, hD2, hD3, hD4]
  ring

/-- When the per-cell change is either zero or above the write threshold, the
written cell value is exactly the blended diffusion value. -/
theorem diffuseField_eq_of_threshold {A : Type} [LinearOrderedField A] (t : FieldType)
    (g : Grid A) (y x : ℕ)
    (h : diffuseValue t g y x = g y x ∨ |diffuseValue t g y x - g y x| > 0.001) :
    diffuseField t g y x = diffuseValue t g y x := by
  simp only [diffuseField]
  rcases h with h | h
  · split_ifs with hc
    · rfl
    · exact h.symm
  · rw [if_pos h]

/-- C9 amended: one diffuseField step conserves total mass exactly on every
layer whose mass all lies at least two cells from every edge (so each massive
cell and all its neighbors have four in-bounds neighbors), provided no
per-cell change is suppressed by the 0.001 write threshold; near an edge the
total is not conserved, and a non-boundary cell adjacent to the boundary can
alone change it (see the counterexample). -/
theorem diffuseField_mass_conservation {A : Type} [LinearOrderedField A] (t : FieldType)
    (g : Grid A)
    (hsupp : ∀ y x, ¬ deepInterior y x → g y x = 0)
    (hthr : ∀ y x, y < GRID_HEIGHT → x < GRID_WIDTH →
      diffuseValue t g y x = g y x ∨ |diffuseValue t g y x - g y x| > 0.001) :
    totalMass (diffuseField t g) = totalMass g := by
  have h1 : totalMass (diffuseField t g)
      = ∑ y ∈ Finset.range GRID_HEIGHT, ∑ x ∈ Finset.range GRID_WIDTH, diffuseValue t g y x := by
    unfold totalMass
    refine Finset.sum_congr rfl (fun y hy => Finset.sum_congr rfl (fun x hx => ?_))
    exact diffuseField_eq_of_threshold t g y x
      (hthr y x (Finset.mem_range.mp hy) (Finset.mem_range.mp hx))
  rw [h1]
  simp only [diffuseValue, Finset.sum_add_distrib, ← Finset.sum_mul]
  rw [sum_avgNeighbor_eq_totalMass g hsupp]
  unfold totalMass
  ring

/-- Witness for diffuseField_mass_conservation: unit mass at the central cell
(8,15) is conserved by one heat diffusion step. -/
theorem diffuseField_mass_conservation_witness :
    totalMass (diffuseField FieldType.heat centerGrid) = totalMass centerGrid := by
  refine diffuseField_mass_conservation FieldType.heat centerGrid ?_ ?_
  · intro y x h
    simp only [centerGrid]
    rw [if_neg]
    rintro ⟨rfl, rfl⟩
    exact h (by unfold deepInterior GRID_HEIGHT GRID_WIDTH; omega)
  · intro y x hy hx
    by_cases h5 : (y = 8 ∧ x = 15) ∨ (y = 7 ∧ x = 15) ∨ (y = 9 ∧ x = 15)
        ∨ (y = 8 ∧ x = 14) ∨ (y = 8 ∧ x = 16)
    · right
      rcases h5 with ⟨rfl, rfl⟩ | ⟨rfl, rfl⟩ | ⟨rfl, rfl⟩ | ⟨rfl, rfl⟩ | ⟨rfl, rfl⟩ <;>
        norm_num [diffuseValue, avgNeighbor, neighborValues, centerGrid, diffusionRate,
          GRID_HEIGHT, GRID_WIDTH, lt_abs]
    · left
      have hself : centerGrid y x = 0 := by
        simp only [centerGrid]
        rw [if_neg]
        rintro ⟨rfl, rfl⟩
        exact h5 (Or.inl ⟨rfl, rfl⟩)
      have h1 : centerGrid (y - 1) x = 0 := by
        simp only [centerGrid]
        rw [if_neg]
        rintro ⟨hy1, rfl⟩
        exact h5 (Or.inr (Or.inr (Or.inl ⟨by omega, rfl⟩)))
      have h2 : centerGrid (y + 1) x = 0 := by
        simp only [centerGrid]
        rw [if_neg]
        rintro ⟨hy1, rfl⟩
        exact h5 (Or.inr (Or.inl ⟨by omega, rfl⟩))
      have h3 : centerGrid y (x - 1) = 0 := by
        simp only [centerGrid]
        rw [if_neg]
        rintro ⟨rfl, hx1⟩
        exact h5 (Or.inr (Or.inr (Or.inr (Or.inr ⟨rfl, by omega⟩))))
      have h4 : centerGrid y (x + 1) = 0 := by
        simp only [centerGrid]
        rw [if_neg]
        rintro ⟨rfl, hx1⟩
        exact h5 (Or.inr (Or.inr (Or.inr (Or.inl ⟨rfl, by omega⟩))))
      simp only [diffuseValue,
        avgNeighbor_eq_zero_of_neighbors_zero centerGrid y x hself h1 h2 h3 h4, hself]
      ring

/-- One heat diffusion step on edgeAdjacentGrid agrees with the explicit grid
edgeAdjacentDiffused on every world cell. -/
theorem diffuseField_edgeAdjacentGrid_cells (y x : ℕ)
    (hy : y < GRID_HEIGHT) (hx : x < GRID_WIDTH) :
    diffuseField FieldType.heat edgeAdjacentGrid y x = edgeAdjacentDiffused y x := by
  by_cases h5 : (y = 1 ∧ x = 1) ∨ (y = 0 ∧ x = 1) ∨ (y = 2 ∧ x = 1)
      ∨ (y = 1 ∧ x = 0) ∨ (y = 1 ∧ x = 2)
  · rcases h5 with ⟨rfl, rfl⟩ | ⟨rfl, rfl⟩ | ⟨rfl, rfl⟩ | ⟨rfl, rfl⟩ | ⟨rfl, rfl⟩ <;>
      norm_num [diffuseField, diffuseValue, avgNeighbor, neighborValues, edgeAdjacentGrid,
        edgeAdjacentDiffused, diffusionRate, GRID_HEIGHT, GRID_WIDTH, lt_abs]
  · have hself : edgeAdjacentGrid y x = 0 := by
      simp only [edgeAdjacentGrid]
      rw [if_neg]
      rintro ⟨rfl, rfl⟩
      exact h5 (Or.inl ⟨rfl, rfl⟩)
    have h1 : edgeAdjacentGrid (y - 1) x = 0 := by
      simp only [edgeAdjacentGrid]
      rw [if_neg]
      rintro ⟨hy1, rfl⟩
      exact h5 (Or.inr (Or.inr (Or.inl ⟨by omega, rfl⟩)))
    have h2 : edgeAdjacentGrid (y + 1) x = 0 := by
      simp only [edgeAdjacentGrid]
      rw [if_neg]
      rintro ⟨hy1, rfl⟩
      exact h5 (Or.inr (Or.inl ⟨by omega, rfl⟩))
    have h3 : edgeAdjacentGrid y (x - 1) = 0 := by
      simp only [edgeAdjacentGrid]
      rw [if_neg]
      rintro ⟨rfl, hx1⟩
      exact h5 (Or.inr (Or.inr (Or.inr (Or.inr ⟨rfl, by omega⟩))))
    have h4 : edgeAdjacentGrid y (x + 1) = 0 := by
      simp only [edgeAdjacentGrid]
      rw [if_neg]
      rintro ⟨rfl, hx1⟩
      exact h5 (Or.inr (Or.inr (Or.inr (Or.inl ⟨rfl, by omega⟩))))
    have hD : edgeAdjacentDiffused y x = 0 := by
      simp only [edgeAdjacentDiffused]
      rw [if_neg (by rintro ⟨rfl, rfl⟩; exact h5 (Or.inl ⟨rfl, rfl⟩)),
        if_neg (by
          rintro (⟨rfl, rfl⟩ | ⟨rfl, rfl⟩)
          · exact h5 (Or.inr (Or.inl ⟨rfl, rfl⟩))
          · exact h5 (Or.inr (Or.inr (Or.inr (Or.inl ⟨rfl, rfl⟩))))),
        if_neg (by
          rintro (⟨rfl, rfl⟩ | ⟨rfl, rfl⟩)
          · exact h5 (Or.inr (Or.inr (Or.inl ⟨rfl, rfl⟩)))
          · exact h5 (Or.inr (Or.inr (Or.inr (Or.inr ⟨rfl, rfl⟩)))))]
    rw [hD]
    simp only [diffuseField, diffuseValue,
      avgNeighbor_eq_zero_of_neighbors_zero edgeAdjacentGrid y x hself h1 h2 h3 h4, hself]
    norm_num

/-- Total mass of edgeAdjacentGrid, cell by cell. -/
theorem totalMass_edgeAdjacentGrid : totalMass edgeAdjacentGrid = 1 := by
  norm_num [totalMass, Finset.sum_range_succ, edgeAdjacentGrid, GRID_WIDTH, GRID_HEIGHT]

/-- Total mass of edgeAdjacentDiffused, cell by cell. -/
theorem totalMass_edgeAdjacentDiffused : totalMass edgeAdjacentDiffused = 1.02 := by
  norm_num [totalMass, Finset.sum_range_succ, edgeAdjacentDiffused, GRID_WIDTH, GRID_HEIGHT]

/-- C9 counterexample: on a layer whose only mass (one unit) sits at cell
(1,1) - a non-boundary cell with all four neighbors in bounds, so every
boundary cell holds zero - one heat diffuseField step changes the total mass
from 1 to 1.02: the step does not conserve total mass even though no boundary
cell carries mass, so boundary cells are not the only net-mass-changing
cells. -/
theorem diffuseField_interior_mass_not_conserved :
    boundaryCellsZero edgeAdjacentGrid = true ∧
    totalMass (diffuseField FieldType.heat edgeAdjacentGrid) ≠ totalMass edgeAdjacentGrid := by
  constructor
  · decide
  · have hcells : totalMass (diffuseField FieldType.heat edgeAdjacentGrid)
        = totalMass edgeAdjacentDiffused := by
      unfold totalMass
      refine Finset.sum_congr rfl (fun y hy => Finset.sum_congr rfl (fun x hx => ?_))
      exact diffuseField_edgeAdjacentGrid_cells y x
        (Finset.mem_range.mp hy) (Finset.mem_range.mp hx)
    rw [hcells, totalMass_edgeAdjacentDiffused, totalMass_edgeAdjacentGrid]
    norm_num

end Hacktown
